import Mathlib

/-!
Verification development for the TriPlayer client-side IPC engine
(`src/Application/source/Sysmodule.cpp`).

The engine is embedded shallowly: the `Sysmodule` object's fields become a
Lean structure `SysState`; each completion handler (a C++ closure) is
defunctionalized into the inductive `Handler`, interpreted by `applyHandler`;
the worker loop's queue-draining phase becomes the fuel-indexed function
`drainGo`, which also records the trace of handler invocations; the transport
(`Socket::TransferSocket::writeMessage` / `readMessage`) is abstracted as a
step-indexed oracle `Nat → Bool × String` (write success and the reply read
for the request sent at that step).

Numeric parsing (`std::stoi`, `std::stoul`, `std::stod`, `strtol`) is
modelled over `Int`/`Rat`; where the C++ library function would throw on an
unparseable string (`stoi`/`stoul`/`stod`), the embedding returns `Option`.
The uncaught exception such a throw raises inside a completion handler —
which escapes `queuedFunc(str)` at `Sysmodule.cpp:142` and kills the worker
loop — is modelled by `handlerThrows` and the exception-faithful drain
`drainGoExc`; `applyHandler`/`drainGo` describe only the non-throwing
executions, and the theorems that use them fix parse-successful replies or
invoke no parsing handler at all.
-/

namespace TriPlayer

/-- Connection error states of the engine (`Sysmodule::Error`, used
throughout `Sysmodule.cpp`). -/
inductive Error where
  | None
  | NotConnected
  | DifferentVersion
  | Unknown
  | LostConnection
  deriving DecidableEq, Repr

/-- Repeat mode cached by the client (`RepeatMode` in the headers). -/
inductive RepeatMode where
  | Off
  | One
  | All
  deriving DecidableEq, Repr

/-- Shuffle mode cached by the client (`ShuffleMode`). -/
inductive ShuffleMode where
  | Off
  | On
  deriving DecidableEq, Repr

/-- Playback status cached by the client (`PlaybackStatus`). -/
inductive PlaybackStatus where
  | Error
  | Playing
  | Paused
  | Stopped
  deriving DecidableEq, Repr

namespace Protocol

/-- Protocol opcodes (`Protocol::Command`), as referenced from
`Sysmodule.cpp`. -/
inductive Command where
  | Version
  | Resume
  | Pause
  | Previous
  | Next
  | GetVolume
  | SetVolume
  | Mute
  | Unmute
  | SetQueueIdx
  | QueueIdx
  | QueueSize
  | RemoveFromQueue
  | GetQueue
  | SetQueue
  | AddToSubQueue
  | RemoveFromSubQueue
  | SubQueueSize
  | GetSubQueue
  | SkipSubQueueSongs
  | GetRepeat
  | SetRepeat
  | GetShuffle
  | SetShuffle
  | GetSong
  | GetStatus
  | GetPosition
  | SetPosition
  | GetPlayingFrom
  | SetPlayingFrom
  | RequestDBLock
  | ReleaseDBLock
  | ReloadConfig
  | Reset
  deriving DecidableEq, Repr

/-- Modelled from the spec: `Protocol.hpp` is not under `src/`, so the
concrete integer assigned to each opcode is unknown; the spec only requires
opcodes to be integers rendered in the request text. Distinct enumeration
indices are used; no claim depends on the concrete values. -/
def cmdId : Command → Nat
  | .Version => 0
  | .Resume => 1
  | .Pause => 2
  | .Previous => 3
  | .Next => 4
  | .GetVolume => 5
  | .SetVolume => 6
  | .Mute => 7
  | .Unmute => 8
  | .SetQueueIdx => 9
  | .QueueIdx => 10
  | .QueueSize => 11
  | .RemoveFromQueue => 12
  | .GetQueue => 13
  | .SetQueue => 14
  | .AddToSubQueue => 15
  | .RemoveFromSubQueue => 16
  | .SubQueueSize => 17
  | .GetSubQueue => 18
  | .SkipSubQueueSongs => 19
  | .GetRepeat => 20
  | .SetRepeat => 21
  | .GetShuffle => 22
  | .SetShuffle => 23
  | .GetSong => 24
  | .GetStatus => 25
  | .GetPosition => 26
  | .SetPosition => 27
  | .GetPlayingFrom => 28
  | .SetPlayingFrom => 29
  | .RequestDBLock => 30
  | .ReleaseDBLock => 31
  | .ReloadConfig => 32
  | .Reset => 33

/-- Modelled from the spec: `Protocol::Delimiter` lives in the missing
`Protocol.hpp`; the spec fixes it as a single reserved byte that never occurs
in numeric payloads and prints it as the unit-separator symbol. No claim
depends on its concrete value. -/
def Delimiter : Char := '\x1f'

/-- Modelled from the spec: `Protocol::Version` lives in the missing
`Protocol.hpp`; the spec's end-to-end scenario fixes the compiled protocol
version at 3. No claim depends on the concrete value. -/
def Version : Int := 3

end Protocol

/-- Single-character delimiter string, mirroring the `DELIM` macro
(`std::string(1, Protocol::Delimiter)`). -/
def DELIM : String := String.singleton Protocol.Delimiter

/-! ## Numeric text parsing and formatting

Models of the C++ standard-library routines used by the handlers. -/

/-- Accumulates a decimal digit list into a natural number. -/
def natOfDigits (l : List Char) : Nat :=
  l.foldl (fun a c => a * 10 + (c.toNat - 48)) 0

/-- Model of `std::stoi`/`std::stol`: skip spaces, optional sign, then a
non-empty run of decimal digits; trailing characters are ignored. Returns
`Option.none` where the C++ function would throw `std::invalid_argument`. -/
def stoi (s : String) : Option Int :=
  let cs := s.toList.dropWhile (fun c => c = ' ')
  match cs with
  | '-' :: rest =>
      let ds := (rest.span Char.isDigit).1
      if ds = [] then Option.none else Option.some (-(natOfDigits ds : Int))
  | '+' :: rest =>
      let ds := (rest.span Char.isDigit).1
      if ds = [] then Option.none else Option.some (natOfDigits ds : Int)
  | _ =>
      let ds := (cs.span Char.isDigit).1
      if ds = [] then Option.none else Option.some (natOfDigits ds : Int)

/-- Width of `size_t` on the target (64-bit). -/
def sizeTBits : Nat := 64

/-- Reduction of an integer into `size_t` range, as the C++ conversions to
`size_t` do (modular wrap-around). -/
def toSizeT (z : Int) : Nat :=
  (z % ((2 : Int) ^ sizeTBits)).toNat

/-- Model of `std::stoul` followed by storage in a `size_t`: parse as
`stoi` and wrap modulo `2 ^ 64`. -/
def stoul (s : String) : Option Nat :=
  (stoi s).map toSizeT

/-- Model of `strtol(tok, nullptr, 10)` as used in the queue-reply
tokenizers: like `stoi` but yields 0 instead of failing. -/
def strtol (s : String) : Int :=
  (stoi s).getD 0

/-- Model of `std::stod` on the plain fixed-point replies the protocol
uses: sign, integer digits, optional fraction; exponents are not modelled
(no reply in the protocol carries one). -/
def stod (s : String) : Option Rat :=
  let cs := s.toList.dropWhile (fun c => c = ' ')
  let sign : Bool × List Char :=
    match cs with
    | '-' :: r => (true, r)
    | '+' :: r => (false, r)
    | _ => (false, cs)
  let ip := (sign.2.span Char.isDigit).1
  let after := (sign.2.span Char.isDigit).2
  let fp : List Char :=
    match after with
    | '.' :: r => (r.span Char.isDigit).1
    | _ => []
  if ip = [] ∧ fp = [] then Option.none
  else
    Option.some (mkRat ((if sign.1 then -1 else 1) *
      ((natOfDigits ip * 10 ^ fp.length + natOfDigits fp : Nat) : Int)) (10 ^ fp.length))

/-- Pads a string with leading zeros to the given width. -/
def padZeros (s : String) (w : Nat) : String :=
  String.mk (List.replicate (w - s.length) '0') ++ s

/-- Model of `std::to_string(double)`: fixed-point with six digits after
the decimal point (`%f`), rounding to nearest; `⌊|v| * 10^6 + 1/2⌋` is
computed as `(2 * |num| * 10^6 + den) / (2 * den)` in integer arithmetic
(ties round up; the values the claims exercise are exact). -/
def doubleToString (v : Rat) : String :=
  let neg := v.num < 0
  let n : Nat := (2 * v.num.natAbs * 1000000 + v.den) / (2 * v.den)
  (if neg then "-" else "") ++ toString (n / 1000000) ++ "." ++
    padZeros (toString (n % 1000000)) 6

/-- Model of the `strtok` tokenization of delimiter-joined replies
(`sendGetQueue`/`sendGetSubQueue` handlers): split on the delimiter and
drop empty tokens, as `strtok` does. -/
def tokenize (s : String) : List String :=
  (s.split (fun c => c = Protocol.Delimiter)).filter (fun t => t ≠ "")

/-! ## Data model

`SongID` is an `int` in the sources; completion handlers are C++ closures,
defunctionalized here: one `Handler` constructor per lambda appearing in
`Sysmodule.cpp`, with the values the lambda captures as constructor
arguments. -/

/-- Song identifier (`SongID`, an `int`). -/
abbrev SongID := Int

/-- Defunctionalized completion handlers: one constructor for each lambda
passed to `addToWriteQueue` in `Sysmodule.cpp`, carrying its captures.
The lambdas of the blocking calls (`waitRequestDBLock`, `waitReset`,
`waitSongIdx`) capture a call-local `done` flag and are modelled separately
with the busy-wait loop. -/
inductive Handler where
  | resume
  | pause
  | previous
  | next
  | getVolume
  | setVolume
  | mute
  | unmute
  | setSongIdx
  | getSongIdx
  | getQueueSize
  | removeFromQueue (pos : Nat)
  | getQueue
  | setQueue (size : Nat)
  | addToSubQueue (id : Int)
  | removeFromSubQueue (pos : Nat)
  | getSubQueueSize
  | getSubQueue
  | skipSubQueueSongs (n : Nat)
  | getRepeat
  | setRepeat (m : RepeatMode)
  | getShuffle
  | setShuffle (m : ShuffleMode)
  | getSong
  | getStatus
  | getPosition
  | setPosition
  | getPlayingFrom
  | setPlayingFrom
  | releaseDBLock
  | reloadConfig
  deriving DecidableEq, Repr

/-- State of a `Sysmodule` instance: its fields as assigned in
`Sysmodule.cpp` (mutexes, the socket handle and the wall clock are not part
of the sequential model; `exit_` drives only loop shutdown). -/
structure SysState where
  error_ : Error
  limit_ : Int
  writeQueue : List (String × Handler)
  currentSong_ : Int
  playingFrom_ : String
  position_ : Rat
  queueChanged_ : Bool
  queue_ : List Int
  queueSize_ : Nat
  repeatMode_ : RepeatMode
  shuffleMode_ : ShuffleMode
  songIdx_ : Nat
  subQueueChanged_ : Bool
  subQueue_ : List Int
  subQueueSize_ : Nat
  status_ : PlaybackStatus
  volume_ : Rat
  deriving DecidableEq, Repr

/-- Model of `Sysmodule::addToWriteQueue` (lines 16–24): refuse (returning
`false`, queue untouched) while the error field is not `None`; otherwise
append the pair at the back of the queue and return `true`. -/
def addToWriteQueue (st : SysState) (s : String) (f : Handler) : Bool × SysState :=
  if st.error_ ≠ Error.None then
    (false, st)
  else
    (true, { st with writeQueue := st.writeQueue ++ [(s, f)] })

/-- Model of `Sysmodule::setQueueLimit` (lines 109–111). -/
def setQueueLimit (limit : Int) (st : SysState) : SysState :=
  { st with limit_ := limit }

/-- Model of `Sysmodule::queueChanged` (lines 197–204): read-and-clear. -/
def queueChanged (st : SysState) : Bool × SysState :=
  if st.queueChanged_ then
    (true, { st with queueChanged_ := false })
  else
    (false, st)

/-- Model of `Sysmodule::subQueueChanged` (lines 227–234): read-and-clear. -/
def subQueueChanged (st : SysState) : Bool × SysState :=
  if st.subQueueChanged_ then
    (true, { st with subQueueChanged_ := false })
  else
    (false, st)

/-! ## Public facade: the `send…` methods

Each method builds the request text and enqueues it with its handler,
discarding the `addToWriteQueue` result, exactly as the source does. -/

/-- Model of `Sysmodule::sendGetQueue` (lines 405–419), enqueueing side. -/
def sendGetQueue (s e : Nat) (st : SysState) : SysState :=
  (addToWriteQueue st
    (toString (Protocol.cmdId Protocol.Command.GetQueue) ++ DELIM ++ toString s ++ DELIM ++ toString e)
    Handler.getQueue).2

/-- Model of `Sysmodule::sendGetSubQueue` (lines 476–490), enqueueing side. -/
def sendGetSubQueue (s e : Nat) (st : SysState) : SysState :=
  (addToWriteQueue st
    (toString (Protocol.cmdId Protocol.Command.GetSubQueue) ++ DELIM ++ toString s ++ DELIM ++ toString e)
    Handler.getSubQueue).2

/-- Model of `Sysmodule::sendGetVolume` (lines 340–344), enqueueing side. -/
def sendGetVolume (st : SysState) : SysState :=
  (addToWriteQueue st (toString (Protocol.cmdId Protocol.Command.GetVolume)) Handler.getVolume).2

/-- Model of `Sysmodule::sendSetVolume` (lines 346–350), enqueueing side:
the request is the `SetVolume` opcode, the delimiter, and
`std::to_string(v)`. -/
def sendSetVolume (v : Rat) (st : SysState) : SysState :=
  (addToWriteQueue st
    (toString (Protocol.cmdId Protocol.Command.SetVolume) ++ DELIM ++ doubleToString v)
    Handler.setVolume).2

/-- Model of `Sysmodule::sendGetPlayingFrom` (lines 607–612), enqueueing
side. -/
def sendGetPlayingFrom (st : SysState) : SysState :=
  (addToWriteQueue st (toString (Protocol.cmdId Protocol.Command.GetPlayingFrom)) Handler.getPlayingFrom).2

/-- Model of `Sysmodule::sendGetPosition` (lines 594–598), enqueueing side. -/
def sendGetPosition (st : SysState) : SysState :=
  (addToWriteQueue st (toString (Protocol.cmdId Protocol.Command.GetPosition)) Handler.getPosition).2

/-- Model of `Sysmodule::sendGetQueueSize` (lines 384–395), enqueueing side. -/
def sendGetQueueSize (st : SysState) : SysState :=
  (addToWriteQueue st (toString (Protocol.cmdId Protocol.Command.QueueSize)) Handler.getQueueSize).2

/-- Model of `Sysmodule::sendGetRepeat` (lines 500–518), enqueueing side. -/
def sendGetRepeat (st : SysState) : SysState :=
  (addToWriteQueue st (toString (Protocol.cmdId Protocol.Command.GetRepeat)) Handler.getRepeat).2

/-- Model of `Sysmodule::sendGetShuffle` (lines 546–550), enqueueing side. -/
def sendGetShuffle (st : SysState) : SysState :=
  (addToWriteQueue st (toString (Protocol.cmdId Protocol.Command.GetShuffle)) Handler.getShuffle).2

/-- Model of `Sysmodule::sendGetSong` (lines 564–568), enqueueing side. -/
def sendGetSong (st : SysState) : SysState :=
  (addToWriteQueue st (toString (Protocol.cmdId Protocol.Command.GetSong)) Handler.getSong).2

/-- Model of `Sysmodule::sendGetSongIdx` (lines 370–382), enqueueing side. -/
def sendGetSongIdx (st : SysState) : SysState :=
  (addToWriteQueue st (toString (Protocol.cmdId Protocol.Command.QueueIdx)) Handler.getSongIdx).2

/-- Model of `Sysmodule::sendGetSubQueueSize` (lines 463–474), enqueueing
side. -/
def sendGetSubQueueSize (st : SysState) : SysState :=
  (addToWriteQueue st (toString (Protocol.cmdId Protocol.Command.SubQueueSize)) Handler.getSubQueueSize).2

/-- Model of `Sysmodule::sendGetStatus` (lines 570–592), enqueueing side. -/
def sendGetStatus (st : SysState) : SysState :=
  (addToWriteQueue st (toString (Protocol.cmdId Protocol.Command.GetStatus)) Handler.getStatus).2

/-- Inner loop body of `Sysmodule::sendSetQueue` (lines 430–438): walk the
song list with its index, stopping early once the configured limit is
reached (`hasLimit && i >= (size_t)limit`), appending a delimiter and the
song id for each kept entry. -/
def setQueueSeqGo (hasLimit : Bool) (limit : Int) : Nat → List Int → String → String
  | _, [], acc => acc
  | i, x :: xs, acc =>
    if hasLimit ∧ (i : Int) ≥ limit then acc
    else setQueueSeqGo hasLimit limit (i + 1) xs (acc ++ DELIM ++ toString x)

/-- Model of `Sysmodule::sendSetQueue` (lines 421–445): return unchanged on
an empty list or a zero limit; otherwise serialize the (possibly truncated)
list and enqueue, the handler capturing the untruncated size. -/
def sendSetQueue (q : List Int) (st : SysState) : SysState :=
  if q.length = 0 ∨ st.limit_ = 0 then st
  else
    let size := q.length
    let hasLimit : Bool := st.limit_ ≥ 0
    let seq := setQueueSeqGo hasLimit st.limit_ 0 q ""
    (addToWriteQueue st (toString (Protocol.cmdId Protocol.Command.SetQueue) ++ seq)
      (Handler.setQueue size)).2

/-- Modelled from the spec: the `Protocol::Repeat` codes live in the missing
`Protocol.hpp`; the switch in `sendGetRepeat` only needs three distinct
codes. No claim depends on the concrete values. -/
def repeatOfInt (z : Int) : Option RepeatMode :=
  if z = 0 then Option.some RepeatMode.Off
  else if z = 1 then Option.some RepeatMode.One
  else if z = 2 then Option.some RepeatMode.All
  else Option.none

/-- Modelled from the spec: the `Protocol::Shuffle::Off` code lives in the
missing `Protocol.hpp`. No claim depends on the concrete value. -/
def shuffleOffCode : Int := 0

/-- Modelled from the spec: the `Protocol::Status` codes live in the missing
`Protocol.hpp`; the switch in `sendGetStatus` only needs four distinct
codes. No claim depends on the concrete values. -/
def statusOfInt (z : Int) : Option PlaybackStatus :=
  if z = 0 then Option.some PlaybackStatus.Error
  else if z = 1 then Option.some PlaybackStatus.Playing
  else if z = 2 then Option.some PlaybackStatus.Paused
  else if z = 3 then Option.some PlaybackStatus.Stopped
  else Option.none

/-- Interpretation of the defunctionalized handlers: each case is the body
of the corresponding lambda in `Sysmodule.cpp`, applied to the raw reply
`s`. Lambdas whose only effect is an empty verification branch (`// Error
message here`) are the identity. This function describes the non-throwing
executions only: a reply whose parse fails makes the C++ lambda throw out
of the worker, which `handlerThrows` and `drainGoExc` model; theorems that
depend on a parsed value carry a parse-success hypothesis. -/
def applyHandler : Handler → String → SysState → SysState
  | .resume, s, st =>
      match stoi s with
      | Option.some v => { st with currentSong_ := v }
      | Option.none => st
  | .pause, s, st =>
      match stoi s with
      | Option.some v => { st with currentSong_ := v }
      | Option.none => st
  | .previous, _, st => st
  | .next, _, st => st
  | .getVolume, s, st =>
      match stod s with
      | Option.some v => { st with volume_ := v }
      | Option.none => st
  | .setVolume, s, st =>
      match stod s with
      | Option.some v => { st with volume_ := v }
      | Option.none => st
  | .mute, s, st =>
      match stod s with
      | Option.some v => { st with volume_ := v }
      | Option.none => st
  | .unmute, s, st =>
      match stod s with
      | Option.some v => { st with volume_ := v }
      | Option.none => st
  | .setSongIdx, s, st =>
      match stoi s with
      | Option.some v => { st with songIdx_ := toSizeT v }
      | Option.none => st
  | .getSongIdx, s, st =>
      match stoul s with
      | Option.some tmp =>
          let st1 := if st.songIdx_ ≠ tmp then sendGetSubQueue 0 5000 (sendGetQueue 0 25000 st) else st
          { st1 with songIdx_ := tmp }
      | Option.none => st
  | .getQueueSize, s, st =>
      match stoul s with
      | Option.some tmp =>
          let st1 := if st.queueSize_ ≠ tmp then sendGetQueue 0 25000 st else st
          { st1 with queueSize_ := tmp }
      | Option.none => st
  | .removeFromQueue _, _, st => st
  | .getQueue, s, st =>
      { st with queue_ := (tokenize s).map strtol, queueChanged_ := true }
  | .setQueue _, _, st => st
  | .addToSubQueue _, _, st => st
  | .removeFromSubQueue _, _, st => st
  | .getSubQueueSize, s, st =>
      match stoul s with
      | Option.some tmp =>
          let st1 := if st.subQueueSize_ ≠ tmp then sendGetSubQueue 0 5000 st else st
          { st1 with subQueueSize_ := tmp }
      | Option.none => st
  | .getSubQueue, s, st =>
      { st with subQueue_ := (tokenize s).map strtol, subQueueChanged_ := true }
  | .skipSubQueueSongs _, _, st => st
  | .getRepeat, s, st =>
      match stoi s with
      | Option.some v => { st with repeatMode_ := (repeatOfInt v).getD RepeatMode.Off }
      | Option.none => st
  | .setRepeat m, s, st =>
      match stoi s with
      | Option.some v =>
          match repeatOfInt v with
          | Option.some rm => if rm ≠ m then st else { st with repeatMode_ := rm }
          | Option.none => st
      | Option.none => st
  | .getShuffle, s, st =>
      match stoi s with
      | Option.some v =>
          { st with shuffleMode_ := if v = shuffleOffCode then ShuffleMode.Off else ShuffleMode.On }
      | Option.none => st
  | .setShuffle _, s, st =>
      match stoi s with
      | Option.some v =>
          let sm := if v = shuffleOffCode then ShuffleMode.Off else ShuffleMode.On
          let st1 := sendGetQueue 0 25000 st
          { st1 with shuffleMode_ := sm }
      | Option.none => st
  | .getSong, s, st =>
      match stoi s with
      | Option.some v => { st with currentSong_ := v }
      | Option.none => st
  | .getStatus, s, st =>
      match stoi s with
      | Option.some v => { st with status_ := (statusOfInt v).getD PlaybackStatus.Error }
      | Option.none => st
  | .getPosition, s, st =>
      match stod s with
      | Option.some v => { st with position_ := v }
      | Option.none => st
  | .setPosition, s, st =>
      match stod s with
      | Option.some v => { st with position_ := v }
      | Option.none => st
  | .getPlayingFrom, s, st => { st with playingFrom_ := s }
  | .setPlayingFrom, s, st => { st with playingFrom_ := s }
  | .releaseDBLock, _, st => st
  | .reloadConfig, _, st => st

/-! ## Worker loop

The transport is a step-indexed oracle: `trans k = (writeOk, reply)` gives
the outcome of the `writeMessage` and subsequent `readMessage` performed for
the k-th request of the drain. `drainGo` is the inner `while
(!writeQueue.empty())` loop of `Sysmodule::process` (lines 125–154); it
returns the final state together with the trace of handler invocations
`(handler, reply)` in the order they occurred. Fuel bounds the number of
iterations (the loop itself only terminates if handlers eventually stop
re-enqueueing). -/
def drainGo (trans : Nat → Bool × String) : Nat → Nat → SysState → SysState × List (Handler × String)
  | 0, _, st => (st, [])
  | fuel + 1, k, st =>
    match st.writeQueue with
    | [] => (st, [])
    | (_, h) :: _ =>
      if (trans k).1 = false then
        ({ st with error_ := Error.LostConnection, writeQueue := [] }, [])
      else if (trans k).2 = "" then
        ({ st with error_ := Error.LostConnection, writeQueue := [] }, [])
      else
        let st1 := applyHandler h (trans k).2 st
        let st2 := { st1 with writeQueue := st1.writeQueue.drop 1 }
        if st2.error_ ≠ Error.None then
          ({ st2 with writeQueue := [] }, [(h, (trans k).2)])
        else
          let r := drainGo trans fuel (k + 1) st2
          (r.1, (h, (trans k).2) :: r.2)

/-- Expected trace of a command list starting at transport step `k`: the
i-th command's handler paired with the reply read at step `k + i`. -/
def traceOf (trans : Nat → Bool × String) : Nat → List (String × Handler) → List (Handler × String)
  | _, [] => []
  | k, c :: cs => (c.2, (trans k).2) :: traceOf trans (k + 1) cs

/-- Polling battery of `Sysmodule::process` (lines 165–174): the ten
`sendGet…` calls in their source order. -/
def pollBattery (st : SysState) : SysState :=
  sendGetVolume (sendGetStatus (sendGetSubQueueSize (sendGetSongIdx (sendGetSong
    (sendGetShuffle (sendGetRepeat (sendGetQueueSize (sendGetPosition
      (sendGetPlayingFrom st)))))))))

/-- One iteration of the outer `while (!this->exit_)` loop of
`Sysmodule::process` (lines 115–180): in an error state, sleep and do
nothing; otherwise drain the queue, then — if the 100 ms update delay has
elapsed (`timeElapsed`) — enqueue the polling battery, else sleep 5 ms. -/
def processIter (trans : Nat → Bool × String) (fuel : Nat) (timeElapsed : Bool)
    (st : SysState) : SysState × List (Handler × String) :=
  if st.error_ ≠ Error.None then (st, [])
  else
    let r := drainGo trans fuel 0 st
    (if timeElapsed then pollBattery r.1 else r.1, r.2)

/-- Whether the handler lambda would throw on reply `s`: every lambda whose
first statement parses the raw reply with `std::stoi`/`std::stoul`/`std::stod`
throws `std::invalid_argument` on an unparseable string; the two tokenizer
handlers (`strtok`/`strtol`) and the two playing-from handlers never parse
with a throwing function. -/
def handlerThrows (h : Handler) (s : String) : Bool :=
  match h with
  | .getQueue | .getSubQueue | .getPlayingFrom | .setPlayingFrom => false
  | .getVolume | .setVolume | .mute | .unmute | .getPosition | .setPosition => (stod s).isNone
  | _ => (stoi s).isNone

/-- Holds when, for each command of the list in order, the reply the
transport produces at the corresponding step is one its handler parses
without throwing. -/
def noThrowReplies (trans : Nat → Bool × String) : Nat → List (String × Handler) → Bool
  | _, [] => true
  | k, c :: cs => !(handlerThrows c.2 ((trans k).2)) && noThrowReplies trans (k + 1) cs

/-- Exception-faithful variant of `drainGo`: when the handler's first parse
throws (`handlerThrows`), the exception propagates out of `queuedFunc(str)`
at `Sysmodule.cpp:142` and kills the worker loop — the drain stops with the
front command never popped and no further handler invoked. The third
component records whether the run aborted this way. On runs where no
handler throws, it behaves exactly as `drainGo`. -/
def drainGoExc (trans : Nat → Bool × String) :
    Nat → Nat → SysState → SysState × List (Handler × String) × Bool
  | 0, _, st => (st, [], false)
  | fuel + 1, k, st =>
    match st.writeQueue with
    | [] => (st, [], false)
    | (_, h) :: _ =>
      if (trans k).1 = false then
        ({ st with error_ := Error.LostConnection, writeQueue := [] }, [], false)
      else if (trans k).2 = "" then
        ({ st with error_ := Error.LostConnection, writeQueue := [] }, [], false)
      else if handlerThrows h ((trans k).2) then
        (st, [], true)
      else
        let st1 := applyHandler h ((trans k).2) st
        let st2 := { st1 with writeQueue := st1.writeQueue.drop 1 }
        if st2.error_ ≠ Error.None then
          ({ st2 with writeQueue := [] }, [(h, (trans k).2)], false)
        else
          let r := drainGoExc trans fuel (k + 1) st2
          (r.1, (h, (trans k).2) :: r.2.1, r.2.2)

/-- Error outcome of `Sysmodule::reconnect` (lines 63–99). `sockOk` is
whether a socket was obtained and `isConnected()` held; `reply` is the text
read back after the version request. `Option.none` marks the path where
`std::stoi` would throw on an unparseable non-empty reply. -/
def reconnectError (sockOk : Bool) (reply : String) : Option Error :=
  if sockOk = false then Option.some Error.NotConnected
  else if reply.length > 0 then
    match stoi reply with
    | Option.some version =>
        if version ≠ Protocol.Version then Option.some Error.DifferentVersion
        else Option.some Error.None
    | Option.none => Option.none
  else Option.some Error.Unknown

/-! ## Blocking veneer

The busy-wait loops of `waitRequestDBLock` (lines 253–271), `waitReset`
(273–289) and `waitSongIdx` (291–310) poll a call-local `done` flag every
5 ms and abort when the shared error field leaves `None`. One observation
`(done, err)` is sampled per loop iteration; `Option.none` means the
observation list ran out with the call still waiting. -/
def waitPoll : List (Bool × Error) → Option Bool
  | [] => Option.none
  | (d, e) :: rest =>
    if d then Option.some true
    else if e ≠ Error.None then Option.some false
    else waitPoll rest

/-- Largest `size_t` value (`std::numeric_limits<size_t>::max()`). -/
def sizeTMax : Nat := 2 ^ sizeTBits - 1

/-- Result of the wait loop in `Sysmodule::waitRequestDBLock`. -/
def waitRequestDBLock (obs : List (Bool × Error)) : Option Bool :=
  waitPoll obs

/-- Result of the wait loop in `Sysmodule::waitReset`. -/
def waitReset (obs : List (Bool × Error)) : Option Bool :=
  waitPoll obs

/-- Result of the wait loop in `Sysmodule::waitSongIdx`: the cached index on
completion, `sizeTMax` on abort. -/
def waitSongIdx (obs : List (Bool × Error)) (st : SysState) : Option Nat :=
  match waitPoll obs with
  | Option.some true => Option.some st.songIdx_
  | Option.some false => Option.some sizeTMax
  | Option.none => Option.none

/-- Syntactic classification of the handlers whose body re-enqueues via a
`sendGet…` call (`sendGetSongIdx`, `sendGetQueueSize`, `sendGetSubQueueSize`
handlers on a size change, the `sendSetShuffle` handler unconditionally). -/
def handlerEnqueues : Handler → Bool
  | .getSongIdx => true
  | .getQueueSize => true
  | .getSubQueueSize => true
  | .setShuffle _ => true
  | _ => false

/-- Delimiter-prefixed serialization of a song list, the list-level
specification of the `sendSetQueue` loop. -/
def setQueueSerial (l : List Int) : String :=
  l.foldl (fun a x => a ++ DELIM ++ toString x) ""

/-- Request text of a `GetQueue` command for the bounds `(s, e)`. -/
def getQueueRequest (s e : Nat) : String :=
  toString (Protocol.cmdId Protocol.Command.GetQueue) ++ DELIM ++ toString s ++ DELIM ++ toString e

/-- Request text of a `GetSubQueue` command for the bounds `(s, e)`. -/
def getSubQueueRequest (s e : Nat) : String :=
  toString (Protocol.cmdId Protocol.Command.GetSubQueue) ++ DELIM ++ toString s ++ DELIM ++ toString e

/-- Concrete state with the field values the constructor assigns
(`Sysmodule::Sysmodule`, lines 26–53) after a successful handshake, used to
instantiate the theorems. -/
def sampleState : SysState where
  error_ := Error.None
  limit_ := -1
  writeQueue := []
  currentSong_ := -1
  playingFrom_ := ""
  position_ := 0
  queueChanged_ := false
  queue_ := []
  queueSize_ := 0
  repeatMode_ := RepeatMode.Off
  shuffleMode_ := ShuffleMode.Off
  songIdx_ := 0
  subQueueChanged_ := false
  subQueue_ := []
  subQueueSize_ := 0
  status_ := PlaybackStatus.Stopped
  volume_ := 100

/-! ## Helper lemmas

Preservation facts about the handler interpretation and unfolding lemmas for
the drain loop, shared by the claim theorems. -/

theorem addToWriteQueue_snd_error (st : SysState) (s : String) (f : Handler) :
    ((addToWriteQueue st s f).2).error_ = st.error_ := by
  unfold addToWriteQueue
  split <;> rfl

theorem sendGetQueue_error (a b : Nat) (st : SysState) :
    (sendGetQueue a b st).error_ = st.error_ :=
  addToWriteQueue_snd_error st _ _

theorem sendGetSubQueue_error (a b : Nat) (st : SysState) :
    (sendGetSubQueue a b st).error_ = st.error_ :=
  addToWriteQueue_snd_error st _ _

theorem applyHandler_error (h : Handler) (s : String) (st : SysState) :
    (applyHandler h s st).error_ = st.error_ := by
  cases h <;> simp only [applyHandler] <;>
    (repeat' split) <;>
    simp [sendGetQueue_error, sendGetSubQueue_error]

theorem addToWriteQueue_snd_writeQueue (st : SysState) (s : String) (f : Handler) :
    ∃ new, ((addToWriteQueue st s f).2).writeQueue = st.writeQueue ++ new := by
  unfold addToWriteQueue
  split
  case isTrue => exact ⟨[], by simp⟩
  case isFalse => exact ⟨[(s, f)], rfl⟩

theorem applyHandler_writeQueue (h : Handler) (s : String) (st : SysState) :
    ∃ new, (applyHandler h s st).writeQueue = st.writeQueue ++ new ∧
      (handlerEnqueues h = false → new = []) := by
  have gq : ∀ (a b : Nat) (st1 : SysState), ∃ new, (sendGetQueue a b st1).writeQueue = st1.writeQueue ++ new :=
    fun a b st1 => addToWriteQueue_snd_writeQueue st1 _ _
  have gsq : ∀ (a b : Nat) (st1 : SysState), ∃ new, (sendGetSubQueue a b st1).writeQueue = st1.writeQueue ++ new :=
    fun a b st1 => addToWriteQueue_snd_writeQueue st1 _ _
  cases h <;> simp only [applyHandler, handlerEnqueues] <;>
    (repeat' split) <;>
    first
    | (refine ⟨[], ?_, fun _ => rfl⟩
       simp
       done)
    | (obtain ⟨n1, e1⟩ := gq 0 25000 st
       refine ⟨n1, ?_, by simp⟩
       simp [e1]
       done)
    | (obtain ⟨n1, e1⟩ := gsq 0 5000 st
       refine ⟨n1, ?_, by simp⟩
       simp [e1]
       done)
    | (obtain ⟨n1, e1⟩ := gq 0 25000 st
       obtain ⟨n2, e2⟩ := gsq 0 5000 (sendGetQueue 0 25000 st)
       refine ⟨n1 ++ n2, ?_, by simp⟩
       simp [e2, e1])

theorem drainGo_nil (trans : Nat → Bool × String) (fuel k : Nat) (st : SysState)
    (h : st.writeQueue = []) : drainGo trans fuel k st = (st, []) := by
  cases fuel <;> simp [drainGo, h]

theorem drainGo_cons (trans : Nat → Bool × String) (fuel k : Nat) (st : SysState)
    (m : String) (h : Handler) (tl : List (String × Handler))
    (hq : st.writeQueue = (m, h) :: tl) :
    drainGo trans (fuel + 1) k st =
      if (trans k).1 = false then
        ({ st with error_ := Error.LostConnection, writeQueue := [] }, [])
      else if (trans k).2 = "" then
        ({ st with error_ := Error.LostConnection, writeQueue := [] }, [])
      else
        let st1 := applyHandler h ((trans k).2) st
        let st2 : SysState := { st1 with writeQueue := st1.writeQueue.drop 1 }
        if st2.error_ ≠ Error.None then
          ({ st2 with writeQueue := [] }, [(h, (trans k).2)])
        else
          ((drainGo trans fuel (k + 1) st2).1,
            (h, (trans k).2) :: (drainGo trans fuel (k + 1) st2).2) := by
  conv_lhs => rw [drainGo]
  rw [hq]

theorem drainGo_cons_fail (trans : Nat → Bool × String) (fuel k : Nat) (st : SysState)
    (m : String) (h : Handler) (tl : List (String × Handler))
    (hq : st.writeQueue = (m, h) :: tl)
    (hfail : (trans k).1 = false ∨ (trans k).2 = "") :
    drainGo trans (fuel + 1) k st
      = ({ st with error_ := Error.LostConnection, writeQueue := [] }, []) := by
  rw [drainGo_cons trans fuel k st m h tl hq]
  rcases hfail with hf | hf
  · rw [if_pos hf]
  · by_cases hw : (trans k).1 = false
    · rw [if_pos hw]
    · rw [if_neg hw, if_pos hf]

theorem drainGo_cons_good (trans : Nat → Bool × String) (fuel k : Nat) (st : SysState)
    (m : String) (h : Handler) (tl : List (String × Handler))
    (hq : st.writeQueue = (m, h) :: tl)
    (hw : (trans k).1 = true) (hr : (trans k).2 ≠ "")
    (herr1 : (applyHandler h ((trans k).2) st).error_ = Error.None) :
    drainGo trans (fuel + 1) k st =
      ((drainGo trans fuel (k + 1)
          { applyHandler h ((trans k).2) st with
              writeQueue := ((applyHandler h ((trans k).2) st).writeQueue).drop 1 }).1,
        (h, (trans k).2) ::
          (drainGo trans fuel (k + 1)
            { applyHandler h ((trans k).2) st with
                writeQueue := ((applyHandler h ((trans k).2) st).writeQueue).drop 1 }).2) := by
  rw [drainGo_cons trans fuel k st m h tl hq]
  rw [if_neg (by simp [hw])]
  rw [if_neg hr]
  simp only [ne_eq]
  rw [if_neg (by simp [herr1])]

theorem drain_trace_prefix (trans : Nat → Bool × String)
    (cmds : List (String × Handler)) :
    ∀ (f k : Nat) (st : SysState) (extra : List (String × Handler)),
      (∀ j, j < k + cmds.length → (trans j).1 = true ∧ (trans j).2 ≠ "") →
      st.error_ = Error.None → st.writeQueue = cmds ++ extra →
      ∃ st2 extra2,
        st2.error_ = Error.None ∧
        st2.writeQueue = extra ++ extra2 ∧
        drainGo trans (cmds.length + f) k st
          = ((drainGo trans f (k + cmds.length) st2).1,
             traceOf trans k cmds ++ (drainGo trans f (k + cmds.length) st2).2) ∧
        ((∀ c ∈ cmds, handlerEnqueues c.2 = false) → extra2 = []) := by
  induction cmds with
  | nil =>
    intro f k st extra _ herr hq
    exact ⟨st, [], herr, by simpa using hq, by simp [traceOf], fun _ => rfl⟩
  | cons c cs ih =>
    intro f k st extra hgood herr hq
    obtain ⟨m, h⟩ := c
    obtain ⟨hw, hr⟩ := hgood k (by simp only [List.length_cons]; omega)
    obtain ⟨new, hnew, hnewnil⟩ := applyHandler_writeQueue h ((trans k).2) st
    have herr1 : (applyHandler h ((trans k).2) st).error_ = Error.None := by
      rw [applyHandler_error, herr]
    have hq1 : ((applyHandler h ((trans k).2) st).writeQueue).drop 1 = cs ++ (extra ++ new) := by
      rw [hnew, hq]
      simp
    have hlen : ((m, h) :: cs).length + f = (cs.length + f) + 1 := by
      simp only [List.length_cons]
      omega
    rw [hlen]
    rw [drainGo_cons_good trans (cs.length + f) k st m h (cs ++ extra) hq hw hr herr1]
    obtain ⟨st2, extra2, h1, h2, h3, h4⟩ :=
      ih f (k + 1)
        { applyHandler h ((trans k).2) st with
            writeQueue := ((applyHandler h ((trans k).2) st).writeQueue).drop 1 }
        (extra ++ new)
        (fun j hj => hgood j (by simp only [List.length_cons] at hj ⊢; omega))
        (by simpa using herr1) (by simpa using hq1)
    have hidx : k + ((m, h) :: cs).length = (k + 1) + cs.length := by
      simp only [List.length_cons]
      omega
    refine ⟨st2, new ++ extra2, h1, ?_, ?_, ?_⟩
    · rw [h2, List.append_assoc]
    · rw [hidx, h3]
      rw [show traceOf trans k ((m, h) :: cs) = (h, (trans k).2) :: traceOf trans (k + 1) cs from rfl]
      rw [List.cons_append]
    · intro hall
      have hh : handlerEnqueues h = false := hall (m, h) (by simp)
      have hnil : new = [] := hnewnil hh
      subst hnil
      simp only [List.nil_append]
      exact h4 (fun c hc => hall c (by simp [hc]))

theorem length_pos_of_ne_empty (s : String) (h : s ≠ "") : 0 < s.length := by
  obtain ⟨l⟩ := s
  cases l with
  | nil => exact absurd rfl h
  | cons c cs => simp [String.length]

theorem waitPoll_first_error (e : Error) (he : e ≠ Error.None) :
    ∀ (pre rest : List (Bool × Error)), (∀ p ∈ pre, p = (false, Error.None)) →
      waitPoll (pre ++ (false, e) :: rest) = Option.some false := by
  intro pre
  induction pre with
  | nil => intro rest _; simp [waitPoll, he]
  | cons p ps ih =>
    intro rest hpre
    have hp : p = (false, Error.None) := hpre p (by simp)
    subst hp
    simpa [waitPoll] using ih rest (fun q hq => hpre q (by simp [hq]))

/-- C3: `reconnect` performs the version handshake with exactly these
outcomes: no socket / not connected gives `NotConnected`; an empty version
reply gives `Unknown`; a reply parsing to an integer different from the
compiled protocol version gives `DifferentVersion`; a reply equal to it
gives `None`. -/
theorem reconnect_handshake_outcomes (sockOk : Bool) (reply : String) :
    (sockOk = false → reconnectError sockOk reply = Option.some Error.NotConnected) ∧
    (sockOk = true → reply = "" → reconnectError sockOk reply = Option.some Error.Unknown) ∧
    (∀ v : Int, sockOk = true → stoi reply = Option.some v →
      (v ≠ Protocol.Version → reconnectError sockOk reply = Option.some Error.DifferentVersion) ∧
      (v = Protocol.Version → reconnectError sockOk reply = Option.some Error.None)) := by
  refine ⟨?_, ?_, ?_⟩
  · intro h
    simp [reconnectError, h]
  · intro h1 h2
    subst h1
    subst h2
    simp [reconnectError]
  · intro v h1 h2
    have hne : reply ≠ "" := by
      intro hcon
      subst hcon
      simp [stoi] at h2
    have hlen : 0 < reply.length := length_pos_of_ne_empty reply hne
    constructor
    · intro hv
      simp [reconnectError, h1, hlen, h2, hv]
    · intro hv
      simp [reconnectError, h1, hlen, h2, hv]

theorem reconnect_handshake_outcomes_witness :
    reconnectError false "3" = Option.some Error.NotConnected ∧
    reconnectError true "" = Option.some Error.Unknown ∧
    reconnectError true "7" = Option.some Error.DifferentVersion ∧
    reconnectError true "3" = Option.some Error.None :=
  ⟨(reconnect_handshake_outcomes false "3").1 rfl,
   (reconnect_handshake_outcomes true "").2.1 rfl rfl,
   ((reconnect_handshake_outcomes true "7").2.2 7 rfl (by decide)).1 (by decide),
   ((reconnect_handshake_outcomes true "3").2.2 3 rfl (by decide)).2 rfl⟩

/-- C4: `addToWriteQueue` returns false immediately and leaves the queue
unchanged whenever the error field is not `None`; with error `None` it
appends the pair at the back and returns true. -/
theorem addToWriteQueue_contract (st : SysState) (s : String) (f : Handler) :
    (st.error_ ≠ Error.None → addToWriteQueue st s f = (false, st)) ∧
    (st.error_ = Error.None →
      addToWriteQueue st s f
        = (true, { st with writeQueue := st.writeQueue ++ [(s, f)] })) := by
  constructor
  · intro h
    simp [addToWriteQueue, h]
  · intro h
    simp [addToWriteQueue, h]

theorem addToWriteQueue_contract_witness :
    addToWriteQueue sampleState "5" Handler.getVolume
      = (true, { sampleState with
          writeQueue := sampleState.writeQueue ++ [("5", Handler.getVolume)] }) ∧
    addToWriteQueue { sampleState with error_ := Error.LostConnection } "5" Handler.getVolume
      = (false, { sampleState with error_ := Error.LostConnection }) :=
  ⟨(addToWriteQueue_contract sampleState "5" Handler.getVolume).2 rfl,
   (addToWriteQueue_contract { sampleState with error_ := Error.LostConnection } "5"
      Handler.getVolume).1 (by decide)⟩

/-- C5: the changed flags have read-and-clear semantics: after a handler
sets a flag (`getQueue` sets `queueChanged_`, `getSubQueue` sets
`subQueueChanged_`), the first read returns true and resets it, a second
read without an intervening change returns false, and a read of an unset
flag returns false and changes nothing. -/
theorem changed_flags_read_and_clear (st : SysState) (s : String) :
    (applyHandler Handler.getQueue s st).queueChanged_ = true ∧
    (applyHandler Handler.getSubQueue s st).subQueueChanged_ = true ∧
    (st.queueChanged_ = true →
      queueChanged st = (true, { st with queueChanged_ := false }) ∧
      queueChanged (queueChanged st).2 = (false, (queueChanged st).2)) ∧
    (st.queueChanged_ = false → queueChanged st = (false, st)) ∧
    (st.subQueueChanged_ = true →
      subQueueChanged st = (true, { st with subQueueChanged_ := false }) ∧
      subQueueChanged (subQueueChanged st).2 = (false, (subQueueChanged st).2)) ∧
    (st.subQueueChanged_ = false → subQueueChanged st = (false, st)) := by
  refine ⟨by simp [applyHandler], by simp [applyHandler], ?_, ?_, ?_, ?_⟩ <;>
    intro h <;> simp [queueChanged, subQueueChanged, h]

theorem changed_flags_read_and_clear_witness :
    queueChanged { sampleState with queueChanged_ := true }
      = (true, sampleState) ∧
    queueChanged sampleState = (false, sampleState) ∧
    subQueueChanged { sampleState with subQueueChanged_ := true }
      = (true, sampleState) ∧
    subQueueChanged sampleState = (false, sampleState) := by
  have h1 := (changed_flags_read_and_clear { sampleState with queueChanged_ := true } "").2.2.1 rfl
  have h2 := (changed_flags_read_and_clear sampleState "").2.2.2.1 rfl
  have h3 := (changed_flags_read_and_clear { sampleState with subQueueChanged_ := true } "").2.2.2.2.1 rfl
  have h4 := (changed_flags_read_and_clear sampleState "").2.2.2.2.2 rfl
  exact ⟨h1.1, h2, h3.1, h4⟩

/-- C6: the `sendGetQueueSize` handler, on a reply parsing to a value
different from the cached queue size, enqueues exactly one follow-up
`GetQueue` request with bounds `(0, 25000)` and stores the new size; the
`sendGetSubQueueSize` handler likewise enqueues one `GetSubQueue` request
with bounds `(0, 5000)`; if the parsed value equals the cached size no
follow-up is enqueued. -/
theorem size_poll_refetch (st : SysState) (s : String) (tmp : Nat)
    (hparse : stoul s = Option.some tmp) (herr : st.error_ = Error.None) :
    (st.queueSize_ ≠ tmp →
      applyHandler Handler.getQueueSize s st
        = { st with
            writeQueue := st.writeQueue ++ [(getQueueRequest 0 25000, Handler.getQueue)],
            queueSize_ := tmp }) ∧
    (st.queueSize_ = tmp → applyHandler Handler.getQueueSize s st = st) ∧
    (st.subQueueSize_ ≠ tmp →
      applyHandler Handler.getSubQueueSize s st
        = { st with
            writeQueue := st.writeQueue ++ [(getSubQueueRequest 0 5000, Handler.getSubQueue)],
            subQueueSize_ := tmp }) ∧
    (st.subQueueSize_ = tmp → applyHandler Handler.getSubQueueSize s st = st) := by
  refine ⟨?_, ?_, ?_, ?_⟩ <;> intro h
  · simp [applyHandler, hparse, h, sendGetQueue, addToWriteQueue, herr, getQueueRequest]
  · subst h
    simp [applyHandler, hparse]
  · simp [applyHandler, hparse, h, sendGetSubQueue, addToWriteQueue, herr, getSubQueueRequest]
  · subst h
    simp [applyHandler, hparse]

theorem size_poll_refetch_witness :
    stoul "4" = Option.some 4 ∧
    applyHandler Handler.getQueueSize "4" sampleState
      = { sampleState with
          writeQueue := [(getQueueRequest 0 25000, Handler.getQueue)], queueSize_ := 4 } ∧
    applyHandler Handler.getSubQueueSize "0" sampleState = sampleState := by
  refine ⟨by decide, ?_, ?_⟩
  · exact (size_poll_refetch sampleState "4" 4 (by decide) rfl).1 (by decide)
  · exact (size_poll_refetch sampleState "0" 0 (by decide) rfl).2.2.2 rfl

/-- C7: if the error field becomes (or already is) a value other than
`None` while a blocking call is waiting and its completion handler has not
run, the busy-wait loop returns a failure sentinel at the poll that
observes the error: `waitRequestDBLock` and `waitReset` return false and
`waitSongIdx` returns the maximum `size_t` value. -/
theorem blocking_calls_abort_on_error (pre rest : List (Bool × Error)) (e : Error)
    (st : SysState) (hpre : ∀ p ∈ pre, p = (false, Error.None)) (he : e ≠ Error.None) :
    waitRequestDBLock (pre ++ (false, e) :: rest) = Option.some false ∧
    waitReset (pre ++ (false, e) :: rest) = Option.some false ∧
    waitSongIdx (pre ++ (false, e) :: rest) st = Option.some sizeTMax := by
  have hw : waitPoll (pre ++ (false, e) :: rest) = Option.some false :=
    waitPoll_first_error e he pre rest hpre
  exact ⟨hw, hw, by simp [waitSongIdx, hw]⟩

theorem blocking_calls_abort_on_error_witness :
    waitRequestDBLock [(false, Error.None), (false, Error.LostConnection)] = Option.some false ∧
    waitReset [(false, Error.None), (false, Error.LostConnection)] = Option.some false ∧
    waitSongIdx [(false, Error.None), (false, Error.LostConnection)] sampleState
      = Option.some sizeTMax :=
  blocking_calls_abort_on_error [(false, Error.None)] [] Error.LostConnection sampleState
    (by decide) (by decide)

/-- C9: `sendSetVolume 42` enqueues the request consisting of the
`SetVolume` opcode, the delimiter and `"42.000000"`; its handler stores the
value parsed from the reply, so replies `"42.000000"` and `"50.000000"`
yield cached volumes 42 and 50 respectively, independent of the request. -/
theorem sendSetVolume_contract (st : SysState) (herr : st.error_ = Error.None) :
    sendSetVolume 42 st
      = { st with writeQueue := st.writeQueue ++
          [(toString (Protocol.cmdId Protocol.Command.SetVolume) ++ DELIM ++ "42.000000",
            Handler.setVolume)] } ∧
    (∀ st2 : SysState,
      (applyHandler Handler.setVolume "42.000000" st2).volume_ = 42 ∧
      (applyHandler Handler.setVolume "50.000000" st2).volume_ = 50) := by
  constructor
  · have hd : doubleToString 42 = "42.000000" := by decide
    simp [sendSetVolume, addToWriteQueue, herr, hd]
  · intro st2
    constructor
    · simp [applyHandler, show stod "42.000000" = Option.some 42 from by decide]
    · simp [applyHandler, show stod "50.000000" = Option.some 50 from by decide]

theorem sendSetVolume_contract_witness :
    sendSetVolume 42 sampleState
      = { sampleState with writeQueue :=
          [(toString (Protocol.cmdId Protocol.Command.SetVolume) ++ DELIM ++ "42.000000",
            Handler.setVolume)] } ∧
    (applyHandler Handler.setVolume "42.000000" sampleState).volume_ = 42 ∧
    (applyHandler Handler.setVolume "50.000000" sampleState).volume_ = 50 := by
  have h := sendSetVolume_contract sampleState rfl
  exact ⟨h.1, (h.2 sampleState).1, (h.2 sampleState).2⟩

theorem drainGoExc_nil (trans : Nat → Bool × String) (fuel k : Nat) (st : SysState)
    (h : st.writeQueue = []) : drainGoExc trans fuel k st = (st, [], false) := by
  cases fuel <;> simp [drainGoExc, h]

theorem drainGoExc_cons (trans : Nat → Bool × String) (fuel k : Nat) (st : SysState)
    (m : String) (h : Handler) (tl : List (String × Handler))
    (hq : st.writeQueue = (m, h) :: tl) :
    drainGoExc trans (fuel + 1) k st =
      if (trans k).1 = false then
        ({ st with error_ := Error.LostConnection, writeQueue := [] }, [], false)
      else if (trans k).2 = "" then
        ({ st with error_ := Error.LostConnection, writeQueue := [] }, [], false)
      else if handlerThrows h ((trans k).2) then
        (st, [], true)
      else
        let st1 := applyHandler h ((trans k).2) st
        let st2 : SysState := { st1 with writeQueue := st1.writeQueue.drop 1 }
        if st2.error_ ≠ Error.None then
          ({ st2 with writeQueue := [] }, [(h, (trans k).2)], false)
        else
          ((drainGoExc trans fuel (k + 1) st2).1,
            (h, (trans k).2) :: (drainGoExc trans fuel (k + 1) st2).2.1,
            (drainGoExc trans fuel (k + 1) st2).2.2) := by
  conv_lhs => rw [drainGoExc]
  rw [hq]

theorem drainGoExc_cons_good (trans : Nat → Bool × String) (fuel k : Nat) (st : SysState)
    (m : String) (h : Handler) (tl : List (String × Handler))
    (hq : st.writeQueue = (m, h) :: tl)
    (hw : (trans k).1 = true) (hr : (trans k).2 ≠ "")
    (hnt : handlerThrows h ((trans k).2) = false)
    (herr1 : (applyHandler h ((trans k).2) st).error_ = Error.None) :
    drainGoExc trans (fuel + 1) k st =
      ((drainGoExc trans fuel (k + 1)
          { applyHandler h ((trans k).2) st with
              writeQueue := ((applyHandler h ((trans k).2) st).writeQueue).drop 1 }).1,
        (h, (trans k).2) ::
          (drainGoExc trans fuel (k + 1)
            { applyHandler h ((trans k).2) st with
                writeQueue := ((applyHandler h ((trans k).2) st).writeQueue).drop 1 }).2.1,
        (drainGoExc trans fuel (k + 1)
          { applyHandler h ((trans k).2) st with
              writeQueue := ((applyHandler h ((trans k).2) st).writeQueue).drop 1 }).2.2) := by
  rw [drainGoExc_cons trans fuel k st m h tl hq]
  rw [if_neg (by simp [hw])]
  rw [if_neg hr]
  rw [if_neg (by simp [hnt])]
  simp only [ne_eq]
  rw [if_neg (by simp [herr1])]

theorem drainExc_trace_prefix (trans : Nat → Bool × String)
    (cmds : List (String × Handler)) :
    ∀ (f k : Nat) (st : SysState) (extra : List (String × Handler)),
      (∀ j, j < k + cmds.length → (trans j).1 = true ∧ (trans j).2 ≠ "") →
      noThrowReplies trans k cmds = true →
      st.error_ = Error.None → st.writeQueue = cmds ++ extra →
      ∃ st2 extra2,
        st2.error_ = Error.None ∧
        st2.writeQueue = extra ++ extra2 ∧
        drainGoExc trans (cmds.length + f) k st
          = ((drainGoExc trans f (k + cmds.length) st2).1,
             traceOf trans k cmds ++ (drainGoExc trans f (k + cmds.length) st2).2.1,
             (drainGoExc trans f (k + cmds.length) st2).2.2) ∧
        ((∀ c ∈ cmds, handlerEnqueues c.2 = false) → extra2 = []) := by
  induction cmds with
  | nil =>
    intro f k st extra _ _ herr hq
    exact ⟨st, [], herr, by simpa using hq, by simp [traceOf], fun _ => rfl⟩
  | cons c cs ih =>
    intro f k st extra hgood hnothrow herr hq
    obtain ⟨m, h⟩ := c
    obtain ⟨hw, hr⟩ := hgood k (by simp only [List.length_cons]; omega)
    obtain ⟨hnt, hnts⟩ := by simpa [noThrowReplies] using hnothrow
    obtain ⟨new, hnew, hnewnil⟩ := applyHandler_writeQueue h ((trans k).2) st
    have herr1 : (applyHandler h ((trans k).2) st).error_ = Error.None := by
      rw [applyHandler_error, herr]
    have hq1 : ((applyHandler h ((trans k).2) st).writeQueue).drop 1 = cs ++ (extra ++ new) := by
      rw [hnew, hq]
      simp
    have hlen : ((m, h) :: cs).length + f = (cs.length + f) + 1 := by
      simp only [List.length_cons]
      omega
    rw [hlen]
    rw [drainGoExc_cons_good trans (cs.length + f) k st m h (cs ++ extra) hq hw hr
      (by simpa using hnt) herr1]
    obtain ⟨st2, extra2, h1, h2, h3, h4⟩ :=
      ih f (k + 1)
        { applyHandler h ((trans k).2) st with
            writeQueue := ((applyHandler h ((trans k).2) st).writeQueue).drop 1 }
        (extra ++ new)
        (fun j hj => hgood j (by simp only [List.length_cons] at hj ⊢; omega))
        hnts (by simpa using herr1) (by simpa using hq1)
    have hidx : k + ((m, h) :: cs).length = (k + 1) + cs.length := by
      simp only [List.length_cons]
      omega
    refine ⟨st2, new ++ extra2, h1, ?_, ?_, ?_⟩
    · rw [h2, List.append_assoc]
    · rw [hidx, h3]
      rw [show traceOf trans k ((m, h) :: cs) = (h, (trans k).2) :: traceOf trans (k + 1) cs from rfl]
      rw [List.cons_append]
    · intro hall
      have hh : handlerEnqueues h = false := hall (m, h) (by simp)
      have hnil : new = [] := hnewnil hh
      subst hnil
      simp only [List.nil_append]
      exact h4 (fun x hx => hall x (by simp [hx]))

/-- C1 counterexample: with the transport accepting every write and always
answering the non-empty but unparseable reply "abc", the first command's
`getVolume` handler throws at its `std::stod` call and the exception kills
the worker at `Sysmodule.cpp:142`: the drain aborts with the queue
untouched and an empty invocation trace, so the second command's handler is
never invoked even though every reply was non-empty — the claim fails
without a parse-success hypothesis. -/
theorem worker_fifo_dispatch_counterexample :
    (∀ j : Nat, ((fun _ => (true, "abc")) j : Bool × String).1 = true ∧
      ((fun _ => (true, "abc")) j : Bool × String).2 ≠ "") ∧
    drainGoExc (fun _ => (true, "abc")) 2 0
        { sampleState with writeQueue := [("5", Handler.getVolume), ("25", Handler.getStatus)] }
      = ({ sampleState with writeQueue := [("5", Handler.getVolume), ("25", Handler.getStatus)] },
         [], true) ∧
    (drainGoExc (fun _ => (true, "abc")) 2 0
        { sampleState with writeQueue := [("5", Handler.getVolume), ("25", Handler.getStatus)] }).2.1
      ≠ traceOf (fun _ => (true, "abc")) 0 [("5", Handler.getVolume), ("25", Handler.getStatus)] :=
  ⟨fun _ => ⟨rfl, show ("abc" : String) ≠ "" from by decide⟩, by decide, by decide⟩

/-- C1 (amended): with a transport that always accepts the write and
returns, for each command, a non-empty reply that the command's handler
parses without throwing, the drain loop invokes the completion handlers in
exactly the order the commands were enqueued, each exactly once, with the
reply read immediately after its own request (the i-th command gets the
reply of transport step i) and no abort. Handlers may re-enqueue follow-up
commands; those are appended behind the original queue and account exactly
for the trailing `rest` of the trace; when no handler re-enqueues the trace
is exactly the per-command trace and the queue ends empty. -/
theorem worker_fifo_dispatch (trans : Nat → Bool × String)
    (cmds : List (String × Handler)) (st : SysState) (f : Nat)
    (hgood : ∀ j, (trans j).1 = true ∧ (trans j).2 ≠ "")
    (hnothrow : noThrowReplies trans 0 cmds = true)
    (herr : st.error_ = Error.None) (hq : st.writeQueue = cmds) :
    (∃ rest, (drainGoExc trans (cmds.length + f) 0 st).2.1 = traceOf trans 0 cmds ++ rest) ∧
    ((∀ c ∈ cmds, handlerEnqueues c.2 = false) →
      (drainGoExc trans (cmds.length + f) 0 st).2.1 = traceOf trans 0 cmds ∧
      (drainGoExc trans (cmds.length + f) 0 st).1.writeQueue = [] ∧
      (drainGoExc trans (cmds.length + f) 0 st).2.2 = false) := by
  obtain ⟨st2, extra2, h1, h2, h3, h4⟩ :=
    drainExc_trace_prefix trans cmds f 0 st [] (fun j _ => hgood j) hnothrow herr
      (by simpa using hq)
  constructor
  · exact ⟨(drainGoExc trans f (0 + cmds.length) st2).2.1, by rw [h3]⟩
  · intro hall
    have hx : extra2 = [] := h4 hall
    subst hx
    have hnil : st2.writeQueue = [] := by simpa using h2
    have hdg : drainGoExc trans f (0 + cmds.length) st2 = (st2, [], false) :=
      drainGoExc_nil trans f _ st2 hnil
    rw [h3, hdg]
    exact ⟨by simp, by simpa using hnil, rfl⟩

theorem worker_fifo_dispatch_witness :
    (∃ rest,
      (drainGoExc (fun _ => (true, "7")) ([("5", Handler.getVolume), ("25", Handler.getStatus)].length + 0) 0
        { sampleState with writeQueue := [("5", Handler.getVolume), ("25", Handler.getStatus)] }).2.1
        = traceOf (fun _ => (true, "7")) 0 [("5", Handler.getVolume), ("25", Handler.getStatus)] ++ rest) ∧
    ((∀ c ∈ [("5", Handler.getVolume), ("25", Handler.getStatus)], handlerEnqueues c.2 = false) →
      (drainGoExc (fun _ => (true, "7")) ([("5", Handler.getVolume), ("25", Handler.getStatus)].length + 0) 0
        { sampleState with writeQueue := [("5", Handler.getVolume), ("25", Handler.getStatus)] }).2.1
        = traceOf (fun _ => (true, "7")) 0 [("5", Handler.getVolume), ("25", Handler.getStatus)] ∧
      (drainGoExc (fun _ => (true, "7")) ([("5", Handler.getVolume), ("25", Handler.getStatus)].length + 0) 0
        { sampleState with writeQueue := [("5", Handler.getVolume), ("25", Handler.getStatus)] }).1.writeQueue
        = [] ∧
      (drainGoExc (fun _ => (true, "7")) ([("5", Handler.getVolume), ("25", Handler.getStatus)].length + 0) 0
        { sampleState with writeQueue := [("5", Handler.getVolume), ("25", Handler.getStatus)] }).2.2
        = false) :=
  worker_fifo_dispatch (fun _ => (true, "7"))
    [("5", Handler.getVolume), ("25", Handler.getStatus)]
    { sampleState with writeQueue := [("5", Handler.getVolume), ("25", Handler.getStatus)] } 0
    (fun _ => ⟨rfl, show ("7" : String) ≠ "" from by decide⟩) (by decide) rfl rfl

/-- C2: if, while draining, the write fails or the reply is empty for the
command that follows `good` in the queue, the error field becomes
`LostConnection`, the trace contains exactly the handlers of `good` (the
failing command's handler and every later one never run), and the queue is
empty afterwards. -/
theorem worker_failure_discards_queue (trans : Nat → Bool × String)
    (good bad : List (String × Handler)) (c : String × Handler) (st : SysState) (f : Nat)
    (hgood : ∀ j, j < good.length → (trans j).1 = true ∧ (trans j).2 ≠ "")
    (hfail : (trans good.length).1 = false ∨ (trans good.length).2 = "")
    (herr : st.error_ = Error.None) (hq : st.writeQueue = good ++ c :: bad) :
    ∃ st2, drainGo trans (good.length + (f + 1)) 0 st = (st2, traceOf trans 0 good) ∧
      st2.error_ = Error.LostConnection ∧ st2.writeQueue = [] := by
  obtain ⟨st2, extra2, h1, h2, h3, h4⟩ :=
    drain_trace_prefix trans good (f + 1) 0 st (c :: bad)
      (fun j hj => hgood j (by simpa using hj)) herr hq
  obtain ⟨m, h⟩ := c
  have hq2 : st2.writeQueue = (m, h) :: (bad ++ extra2) := by simpa using h2
  have hfail0 : (trans (0 + good.length)).1 = false ∨ (trans (0 + good.length)).2 = "" := by
    simpa using hfail
  have hstep :=
    drainGo_cons_fail trans f (0 + good.length) st2 m h (bad ++ extra2) hq2 hfail0
  refine ⟨{ st2 with error_ := Error.LostConnection, writeQueue := [] }, ?_, rfl, rfl⟩
  rw [h3, hstep]
  simp

theorem worker_failure_discards_queue_witness :
    ∃ st2,
      drainGo (fun k => if k = 0 then (true, "3") else (false, ""))
          ([("5", Handler.getVolume)].length + (1 + 1)) 0
          { sampleState with writeQueue :=
              [("5", Handler.getVolume), ("25", Handler.getStatus), ("24", Handler.getSong)] }
        = (st2, traceOf (fun k => if k = 0 then (true, "3") else (false, "")) 0
            [("5", Handler.getVolume)]) ∧
      st2.error_ = Error.LostConnection ∧ st2.writeQueue = [] :=
  worker_failure_discards_queue (fun k => if k = 0 then (true, "3") else (false, ""))
    [("5", Handler.getVolume)] [("24", Handler.getSong)] ("25", Handler.getStatus)
    { sampleState with writeQueue :=
        [("5", Handler.getVolume), ("25", Handler.getStatus), ("24", Handler.getSong)] } 1
    (by decide) (by decide) rfl rfl

/-- C8 counterexample: while the error field is not `None`, a producer's
command is rejected by `addToWriteQueue` (returning false) and the queue
stays empty; commands do not accumulate in the Command Queue while the
engine is in an error state, contrary to the claim. -/
theorem error_state_no_accumulation :
    ({ sampleState with error_ := Error.LostConnection }).error_ ≠ Error.None ∧
    addToWriteQueue { sampleState with error_ := Error.LostConnection } "5" Handler.getVolume
      = (false, { sampleState with error_ := Error.LostConnection }) ∧
    (addToWriteQueue { sampleState with error_ := Error.LostConnection } "5"
        Handler.getVolume).2.writeQueue = [] := by
  exact ⟨by decide, by decide, by decide⟩

/-- C8 (amended): while the error field is not `None` the worker iteration
performs no I/O and leaves the state (and so the Command Queue) untouched;
producer commands are rejected by `addToWriteQueue` rather than
accumulating; and a send failure or empty reply during a drain sets
`LostConnection` and discards the whole pending queue at once, invoking no
further handler. -/
theorem error_state_inert :
    (∀ (trans : Nat → Bool × String) (fuel : Nat) (b : Bool) (st : SysState),
      st.error_ ≠ Error.None → processIter trans fuel b st = (st, [])) ∧
    (∀ (st : SysState) (s : String) (f : Handler),
      st.error_ ≠ Error.None → addToWriteQueue st s f = (false, st)) ∧
    (∀ (trans : Nat → Bool × String) (fuel k : Nat) (st : SysState) (m : String)
      (h : Handler) (tl : List (String × Handler)),
      st.error_ = Error.None → st.writeQueue = (m, h) :: tl →
      ((trans k).1 = false ∨ (trans k).2 = "") →
      drainGo trans (fuel + 1) k st
        = ({ st with error_ := Error.LostConnection, writeQueue := [] }, [])) := by
  refine ⟨?_, ?_,
    fun trans fuel k st m h tl _ hq hf => drainGo_cons_fail trans fuel k st m h tl hq hf⟩
  · intro trans fuel b st hst
    simp [processIter, hst]
  · intro st s f hst
    simp [addToWriteQueue, hst]

theorem error_state_inert_witness :
    processIter (fun _ => (true, "7")) 3 true { sampleState with error_ := Error.NotConnected }
      = ({ sampleState with error_ := Error.NotConnected }, []) ∧
    addToWriteQueue { sampleState with error_ := Error.NotConnected } "5" Handler.getVolume
      = (false, { sampleState with error_ := Error.NotConnected }) ∧
    drainGo (fun _ => (false, "")) (2 + 1) 0
        { sampleState with writeQueue := [("5", Handler.getVolume)] }
      = ({ sampleState with error_ := Error.LostConnection }, []) := by
  refine ⟨error_state_inert.1 (fun _ => (true, "7")) 3 true _ (by decide),
    error_state_inert.2.1 _ "5" Handler.getVolume (by decide), ?_⟩
  have h := error_state_inert.2.2 (fun _ => (false, "")) 2 0
    { sampleState with writeQueue := [("5", Handler.getVolume)] } "5" Handler.getVolume [] rfl rfl
    (Or.inl rfl)
  simpa using h

theorem setQueueSeqGo_no_limit (limit : Int) (q : List Int) :
    ∀ (i : Nat) (acc : String),
      setQueueSeqGo false limit i q acc
        = q.foldl (fun a x => a ++ DELIM ++ toString x) acc := by
  induction q with
  | nil => intro i acc; simp [setQueueSeqGo]
  | cons x xs ih =>
    intro i acc
    simp only [setQueueSeqGo, Bool.false_eq_true, false_and, if_false, List.foldl_cons]
    exact ih (i + 1) _

theorem setQueueSeqGo_limit (limit : Int) (hlim : 0 ≤ limit) (q : List Int) :
    ∀ (i : Nat) (acc : String),
      setQueueSeqGo true limit i q acc
        = (q.take (limit.toNat - i)).foldl (fun a x => a ++ DELIM ++ toString x) acc := by
  induction q with
  | nil => intro i acc; simp [setQueueSeqGo]
  | cons x xs ih =>
    intro i acc
    by_cases hge : (i : Int) ≥ limit
    · have h0 : limit.toNat - i = 0 := by omega
      simp [setQueueSeqGo, hge, h0]
    · have h1 : limit.toNat - i = (limit.toNat - (i + 1)) + 1 := by omega
      rw [h1]
      simp only [setQueueSeqGo, true_and, if_neg hge, List.take_succ_cons, List.foldl_cons]
      exact ih (i + 1) _

/-- C10: `sendSetQueue` enqueues nothing for an empty list or a zero queue
limit; with a negative limit (the default) every entry is serialized in
order; with a positive limit the serialized request keeps only the first
`limit` entries (at most `limit`), while the completion handler still
captures the full original list length for its reply check. -/
theorem sendSetQueue_contract (st : SysState) (q : List Int) :
    (q = [] ∨ st.limit_ = 0 → sendSetQueue q st = st) ∧
    (st.error_ = Error.None → q ≠ [] → st.limit_ < 0 →
      sendSetQueue q st = { st with writeQueue := st.writeQueue ++
        [(toString (Protocol.cmdId Protocol.Command.SetQueue) ++ setQueueSerial q,
          Handler.setQueue q.length)] }) ∧
    (st.error_ = Error.None → q ≠ [] → 0 < st.limit_ →
      sendSetQueue q st = { st with writeQueue := st.writeQueue ++
        [(toString (Protocol.cmdId Protocol.Command.SetQueue)
            ++ setQueueSerial (q.take st.limit_.toNat),
          Handler.setQueue q.length)] } ∧
      (q.take st.limit_.toNat).length ≤ st.limit_.toNat) := by
  refine ⟨?_, ?_, ?_⟩
  · intro h
    rcases h with h | h
    · simp [sendSetQueue, h]
    · simp [sendSetQueue, h]
  · intro herr hne hlim
    have hlen : ¬(q.length = 0 ∨ st.limit_ = 0) := by
      simp [List.length_eq_zero]
      exact ⟨hne, by omega⟩
    have hbl : ¬(st.limit_ ≥ 0) := by omega
    simp only [sendSetQueue, if_neg hlen]
    rw [show (decide (st.limit_ ≥ 0)) = false from by simpa using hbl]
    rw [setQueueSeqGo_no_limit]
    simp [addToWriteQueue, herr, setQueueSerial]
  · intro herr hne hlim
    have hlen : ¬(q.length = 0 ∨ st.limit_ = 0) := by
      simp [List.length_eq_zero]
      exact ⟨hne, by omega⟩
    have hbl : st.limit_ ≥ 0 := by omega
    refine ⟨?_, List.length_take_le _ _⟩
    simp only [sendSetQueue, if_neg hlen]
    rw [show (decide (st.limit_ ≥ 0)) = true from by simpa using hbl]
    rw [setQueueSeqGo_limit st.limit_ hbl]
    simp [addToWriteQueue, herr, setQueueSerial]

theorem sendSetQueue_contract_witness :
    sendSetQueue [] sampleState = sampleState ∧
    sendSetQueue [5, 6, 7] { sampleState with limit_ := 0 }
      = { sampleState with limit_ := 0 } ∧
    sendSetQueue [5, 6, 7] sampleState
      = { sampleState with writeQueue :=
          [(toString (Protocol.cmdId Protocol.Command.SetQueue) ++ setQueueSerial [5, 6, 7],
            Handler.setQueue 3)] } ∧
    sendSetQueue [5, 6, 7] { sampleState with limit_ := 2 }
      = { sampleState with limit_ := 2, writeQueue :=
          [(toString (Protocol.cmdId Protocol.Command.SetQueue) ++ setQueueSerial [5, 6],
            Handler.setQueue 3)] } := by
  refine ⟨(sendSetQueue_contract sampleState []).1 (Or.inl rfl),
    (sendSetQueue_contract { sampleState with limit_ := 0 } [5, 6, 7]).1 (Or.inr rfl), ?_, ?_⟩
  · have h := (sendSetQueue_contract sampleState [5, 6, 7]).2.1 rfl (by decide) (by decide)
    simpa using h
  · have h := (sendSetQueue_contract { sampleState with limit_ := 2 } [5, 6, 7]).2.2 rfl
      (by decide) (by decide)
    simpa using h.1

end TriPlayer
